import Mathlib

/-!
Verification of the session capture-and-recovery engine of the
AnjiConsultingIncRemoteWorkMonitoringApp repository.

The development shallowly embeds the relevant parts of the TypeScript
source:

* `analyzeSessionContext` — services/geminiService.ts (src/unnamed/part_000):
  classification call with a catch-all fallback result.
* `getVideoFromDB`, `getLogsFromDB`, `loadRecoveryChunks` — services/db.ts:
  durable-store reads.  The inner promise is returned from inside the
  try block WITHOUT `await`, so a rejection of that promise (an
  IndexedDB request error) is not intercepted by the catch clause and
  rejects to the caller; only a failure of `initDB` (the awaited open)
  is caught.  The embedding models a read as a function from the
  underlying-store outcome to `Except`.
* `analyticsOverview` — components/Vault.tsx: the analytics aggregate.
* The `LiveMonitor` component — components/LiveMonitor.tsx: its React
  state, refs, timers and handlers are embedded as a state record
  `MonitorState` plus one transition function per handler / interval
  callback, and a `Step`/`run` small-step trace semantics.  Externally
  visible side effects (IndexedDB writes, the `onSessionComplete`
  callback, `alert`) are modelled as an emitted `Event` trace.
-/

/-- Risk level of an analysis result, `'low' | 'medium' | 'high'` in types.ts. -/
inductive RiskLevel
  | low
  | medium
  | high
deriving DecidableEq, Repr

/-- String rendering of a risk level, as stored into `SessionLog.confidence`. -/
def RiskLevel.str : RiskLevel → String
  | .low => "low"
  | .medium => "medium"
  | .high => "high"

/-- AnalysisResult from types.ts. -/
structure AnalysisResult where
  summary : String
  category : String
  riskLevel : RiskLevel
deriving DecidableEq, Repr

/-- SessionLog.type from types.ts: `'compliance' | 'activity' | 'meeting'`. -/
inductive LogType
  | compliance
  | activity
  | meeting
deriving DecidableEq, Repr

/-- SessionLog from types.ts.  `id` is `Date.now().toString()` at creation. -/
structure SessionLog where
  id : String
  resourceId : String
  timestamp : Nat
  type : LogType
  category : String
  isCameraOn : Bool
  message : String
  confidence : String
  thumbnail : Option String
deriving DecidableEq, Repr

/-- RecordedSession.status from types.ts. -/
inductive SessionStatus
  | processing
  | secure
  | expired
deriving DecidableEq, Repr

/-- RecordedSession from types.ts. -/
structure RecordedSession where
  id : String
  resourceId : String
  startTime : Nat
  duration : Nat
  status : SessionStatus
  fileSize : String
  expiryTime : Nat
  logs : List SessionLog
  videoUrl : Option String
deriving DecidableEq, Repr

/-- MonitoringState from types.ts. -/
inductive MonitoringState
  | IDLE
  | RECORDING
  | PAUSED
  | UPLOADING
deriving DecidableEq, Repr

/-- Audio snapshot payload handed to the classification call. -/
structure AudioData where
  base64 : String
  mimeType : String
deriving DecidableEq, Repr

/-! ## services/geminiService.ts — `analyzeSessionContext` -/

/-- Outcome of one attempt of the try block of `analyzeSessionContext`:
the block can throw in `getClient` (missing API key), in the awaited
remote `generateContent` call, on an empty `response.text`, or in
`JSON.parse`; otherwise it returns the parsed result. -/
inductive GeminiOutcome
  | noApiKey
  | remoteError
  | emptyText
  | badJson
  | good (r : AnalysisResult)
deriving DecidableEq, Repr

/-- The try block of `analyzeSessionContext`: either the parsed result or
the thrown error message. -/
def analyzeAttempt (_base64Image : String) (_audioData : Option AudioData)
    (o : GeminiOutcome) : Except String AnalysisResult :=
  match o with
  | .noApiKey => .error "API_KEY not found in environment"
  | .remoteError => .error "generateContent failed"
  | .emptyText => .error "No response text"
  | .badJson => .error "JSON parse failed"
  | .good r => .ok r

/-- The fallback result returned by the catch clause of
`analyzeSessionContext` (src/unnamed/part_000). -/
def geminiFallback : AnalysisResult :=
  { summary := "AI analysis temporarily unavailable."
    category := "Work"
    riskLevel := RiskLevel.low }

/-- analyzeSessionContext: the whole body is wrapped in try/catch; every
failure resolves to the safe fallback, so the caller always receives a
result. -/
def analyzeSessionContext (base64Image : String) (audioData : Option AudioData)
    (o : GeminiOutcome) : AnalysisResult :=
  match analyzeAttempt base64Image audioData o with
  | .ok r => r
  | .error _ => geminiFallback

/-! ## services/db.ts — durable-store reads

Each read is `async`, opens the database (`await initDB()` — this await
is inside the try block, so an open failure is caught) and then RETURNS
a freshly constructed promise whose rejection (the request's `onerror`)
is NOT awaited inside the try block and therefore bypasses the catch
clause and rejects to the caller.  `DBOutcome` enumerates what the
underlying storage does; the function result is `Except` over it. -/

/-- What the underlying IndexedDB interaction does: the open fails, the
get request errors, or the request succeeds with a stored value
(`none` models a missing record, i.e. `req.result === undefined`). -/
inductive DBOutcome (α : Type)
  | openFail
  | reqFail
  | success (v : Option α)
deriving DecidableEq, Repr

/-- Error surfaced to a caller of a db.ts read. -/
inductive DBError
  | requestError
deriving DecidableEq, Repr

/-- getVideoFromDB: open failure is caught and resolves `undefined`; a
request error rejects (un-awaited inner promise); success resolves
`req.result`. -/
def getVideoFromDB (_sessionId : String) (o : DBOutcome (List Nat)) :
    Except DBError (Option (List Nat)) :=
  match o with
  | .openFail => .ok none
  | .reqFail => .error .requestError
  | .success v => .ok v

/-- getLogsFromDB: open failure is caught and resolves `[]`; a request
error rejects; success resolves `req.result?.logs || []`. -/
def getLogsFromDB (_sessionId : String) (o : DBOutcome (List SessionLog)) :
    Except DBError (List SessionLog) :=
  match o with
  | .openFail => .ok []
  | .reqFail => .error .requestError
  | .success v => .ok (v.getD [])

/-- loadRecoveryChunks: open failure is caught and resolves `[]`; a
request error rejects; success resolves `req.result || []`. -/
def loadRecoveryChunks (o : DBOutcome (List Nat)) :
    Except DBError (List Nat) :=
  match o with
  | .openFail => .ok []
  | .reqFail => .error .requestError
  | .success v => .ok (v.getD [])

/-! ## components/Vault.tsx — `analyticsOverview` -/

/-- Per-log activity-time estimate used by the Vault analytics:
60 seconds for an `Idle`-categorised log, 15 seconds otherwise. -/
def logEstimate (log : SessionLog) : Nat :=
  if log.category == "Idle" then 60 else 15

/-- The fixed key set of `categoryStats` in `analyticsOverview`. -/
def categoryKeys : List String :=
  ["Coding", "Study", "Training", "Meeting", "Work", "Idle", "Other"]

/-- Key lookup of `analyticsOverview`: case-insensitive match against the
fixed key set, defaulting to `Other`. -/
def catKeyFor (c : String) : String :=
  (categoryKeys.find? (fun k => k.toLower == c.toLower)).getD "Other"

/-- Add `d` to the entry of `key` in an association list of category
totals (mirrors `categoryStats[key] += duration`). -/
def bumpCategory (key : String) (d : Nat) :
    List (String × Nat) → List (String × Nat)
  | [] => []
  | (k, v) :: rest =>
      if k == key then (k, v + d) :: rest else (k, v) :: bumpCategory key d rest

/-- Result record of `analyticsOverview`. -/
structure AnalyticsOverview where
  totalDuration : Nat
  cameraDuration : Nat
  categories : List (String × Nat)
  sessionCount : Nat
deriving DecidableEq, Repr

/-- analyticsOverview (Vault.tsx): filters sessions by the selected user,
sums session durations, sums per-log camera-time estimates over
camera-on logs, clamps the camera total with `Math.min`, and
accumulates per-category totals. -/
def analyticsOverview (sessions : List RecordedSession)
    (selectedAnalyticsUser : String) : AnalyticsOverview :=
  let filtered := sessions.filter
    (fun s => selectedAnalyticsUser == "all" || s.resourceId == selectedAnalyticsUser)
  let totalDurationSeconds := (filtered.map (fun s => s.duration)).sum
  let cameraOnSeconds := (filtered.map
    (fun s => ((s.logs.filter (fun l => l.isCameraOn)).map logEstimate).sum)).sum
  let cats := filtered.foldl
    (fun acc s => s.logs.foldl
      (fun acc2 l => bumpCategory (catKeyFor l.category) (logEstimate l) acc2) acc)
    (categoryKeys.map (fun k => (k, 0)))
  { totalDuration := totalDurationSeconds
    cameraDuration := min cameraOnSeconds totalDurationSeconds
    categories := cats
    sessionCount := filtered.length }

/-! ## components/LiveMonitor.tsx — the session capture engine

The component's React state and refs are embedded as `MonitorState`;
every handler and interval callback becomes a transition function.
Media chunks are abstracted as naturals. -/

/-- IDLE_THRESHOLD in LiveMonitor.tsx: five minutes, in milliseconds. -/
def IDLE_THRESHOLD : Nat := 5 * 60 * 1000

/-- Poll period of the idle-check interval (`setInterval(..., 5000)`). -/
def IDLE_POLL_MS : Nat := 5000

/-- Retention window of a saved recovery snapshot: three days in
milliseconds (`259200000` in `checkSavedSession`). -/
def RECOVERY_WINDOW_MS : Nat := 259200000

/-- The `sw_session_meta` payload written by `saveSessionToStorage`:
elapsed time, the log timeline (thumbnails stripped), and a save
timestamp. -/
structure RecoveryMeta where
  elapsedTime : Nat
  logs : List SessionLog
  timestamp : Nat
deriving DecidableEq, Repr

/-- Thumbnail stripping applied to each log before it is put into the
lightweight localStorage metadata. -/
def stripThumbnail (l : SessionLog) : SessionLog :=
  { l with thumbnail := none }

/-- MediaRecorder state: `'inactive' | 'recording' | 'paused'`. -/
inductive RecorderState
  | inactive
  | recording
  | paused
deriving DecidableEq, Repr

/-- Externally visible side effects of the engine: durable-store writes,
localStorage metadata removal, the `onSessionComplete` callback and the
error `alert` of `startMonitoring`. -/
inductive Event
  | saveVideo (sessionId : String) (chunks : List Nat)
  | saveLogs (sessionId : String) (logs : List SessionLog)
  | saveRecovery (chunks : List Nat)
  | clearRecovery
  | removeSessionMeta
  | sessionComplete (sessionId : String) (duration : Nat)
      (logs : List SessionLog) (videoChunks : Option (List Nat))
  | alertError
deriving DecidableEq, Repr

/-- The state of one mounted `LiveMonitor` component plus the durable
recovery-chunk slot it reads back.

* `timerActive` — `timerRef.current !== null` (the 1-second elapsed-time
  ticker exists).
* `analysisFrequency` — `analysisIntervalRef.current`: `none` when the
  sampler interval is cleared, otherwise its period in milliseconds.
* `pendingChunk` — data the encoder has produced since the last
  1-second timeslice delivery; it is flushed through a final
  `dataavailable` when the recorder is stopped.
* `cameraAcquired` — the raw camera/microphone stream obtained by
  `getUserMedia` has live tracks (it has not been stopped).
* `sessionMeta` — the `sw_session_meta` localStorage value.
* `recoveryMeta` — the component's `recoveryMeta` state (the pending
  resume offer).
* `dbRecoveryChunks` — the `active_session` record of the
  `session_chunks` store. -/
structure MonitorState where
  status : MonitoringState
  elapsedTime : Nat
  logs : List SessionLog
  currentAnalysis : Option AnalysisResult
  isIdle : Bool
  lastActivity : Nat
  isCameraEnabled : Bool
  activeSessionId : String
  timerActive : Bool
  analysisFrequency : Option Nat
  recorder : RecorderState
  pendingChunk : Option Nat
  chunks : List Nat
  streamActive : Bool
  cameraAcquired : Bool
  sessionMeta : Option RecoveryMeta
  recoveryMeta : Option RecoveryMeta
  dbRecoveryChunks : Option (List Nat)
deriving DecidableEq, Repr

/-- State of a freshly mounted component: the `useState` initializers,
plus `checkSavedSession`, which offers recovery when `sw_session_meta`
exists and is younger than the three-day window.  `freshId` is the
`crypto.randomUUID()` of the `activeSessionId` initializer. -/
def mountState (freshId : String) (now : Nat)
    (meta : Option RecoveryMeta) (dbChunks : Option (List Nat)) : MonitorState :=
  { status := MonitoringState.IDLE
    elapsedTime := 0
    logs := []
    currentAnalysis := none
    isIdle := false
    lastActivity := now
    isCameraEnabled := true
    activeSessionId := freshId
    timerActive := false
    analysisFrequency := none
    recorder := RecorderState.inactive
    pendingChunk := none
    chunks := []
    streamActive := false
    cameraAcquired := false
    sessionMeta := meta
    recoveryMeta :=
      match meta with
      | some m => if now - m.timestamp < RECOVERY_WINDOW_MS then some m else none
      | none => none
    dbRecoveryChunks := dbChunks }

/-- saveSessionToStorage: writes the lightweight metadata (thumbnails
stripped) to localStorage, mirrors the chunk buffer to the recovery
store when non-empty, and checkpoints the full logs to the logs store
under `activeSessionId` when non-empty. -/
def saveSessionToStorage (now : Nat) (time : Nat) (currentLogs : List SessionLog)
    (chunks : List Nat) (s : MonitorState) : MonitorState × List Event :=
  let meta : RecoveryMeta :=
    { elapsedTime := time, logs := currentLogs.map stripThumbnail, timestamp := now }
  let s1 := { s with sessionMeta := some meta }
  let s2 := if chunks.isEmpty then s1 else { s1 with dbRecoveryChunks := some chunks }
  (s2,
    (if chunks.isEmpty then [] else [Event.saveRecovery chunks])
      ++ (if currentLogs.isEmpty then [] else [Event.saveLogs s.activeSessionId currentLogs]))

/-- startAnalysisLoop: (re)creates the sampler interval with a period of
60 seconds when idle and 15 seconds when active. -/
def startAnalysisLoop (s : MonitorState) : MonitorState :=
  { s with analysisFrequency := some (if s.isIdle then 60000 else 15000) }

/-- Where `startMonitoring` can fail: `failBeforeCamera` is a throw of
`getUserMedia` itself; `failAfterCamera` is a throw of a later startup
step (for example the `MediaRecorder` constructor), after the raw
camera/microphone stream was already acquired.  Both land in the
catch block, which only shows an `alert`. -/
inductive StartOutcome
  | ok
  | failBeforeCamera
  | failAfterCamera
deriving DecidableEq, Repr

/-- startMonitoring: from `IDLE` it resets the chunk buffer and mints a
fresh session id; it resets the activity clock, acquires media, starts
the recorder, enters `RECORDING`, creates the 1-second ticker if absent
and starts the sampler.  On a throw, the catch block surfaces an alert
and nothing else: the status is left as it was, and an already-acquired
camera stream is not stopped. -/
def startMonitoring (now : Nat) (o : StartOutcome) (freshId : String)
    (s : MonitorState) : MonitorState × List Event :=
  let s1 :=
    if s.status = MonitoringState.IDLE then
      { s with chunks := [], activeSessionId := freshId }
    else s
  let s2 := { s1 with lastActivity := now, isIdle := false }
  match o with
  | .failBeforeCamera => (s2, [Event.alertError])
  | .failAfterCamera =>
      ({ s2 with cameraAcquired := true, isCameraEnabled := true }, [Event.alertError])
  | .ok =>
      (startAnalysisLoop
        { s2 with
            cameraAcquired := true
            isCameraEnabled := true
            streamActive := true
            recorder := RecorderState.recording
            pendingChunk := none
            status := MonitoringState.RECORDING
            timerActive := true },
        [])

/-- pauseMonitoring: pauses the recorder, clears the sampler interval,
enters `PAUSED` and checkpoints.  The 1-second ticker (`timerRef`) is
not touched. -/
def pauseMonitoring (now : Nat) (s : MonitorState) : MonitorState × List Event :=
  let s1 :=
    if s.recorder = RecorderState.recording then
      { s with recorder := RecorderState.paused }
    else s
  let s2 := { s1 with analysisFrequency := none, status := MonitoringState.PAUSED }
  saveSessionToStorage now s2.elapsedTime s2.logs s2.chunks s2

/-- resumeMonitoring: when the recording stream is still live, resumes
the recorder, resets the activity clock, restarts the sampler and
enters `RECORDING`; otherwise it falls back to a full
`startMonitoring`. -/
def resumeMonitoring (now : Nat) (o : StartOutcome) (freshId : String)
    (s : MonitorState) : MonitorState × List Event :=
  if s.streamActive then
    let s1 :=
      if s.recorder = RecorderState.paused then
        { s with recorder := RecorderState.recording }
      else s
    (startAnalysisLoop
      { s1 with
          lastActivity := now
          isIdle := false
          status := MonitoringState.RECORDING },
      [])
  else
    startMonitoring now o freshId s

/-- Callback of the 1-second elapsed-time interval: it increments
unconditionally; it can only fire while the interval exists. -/
def timerTick (s : MonitorState) : MonitorState :=
  if s.timerActive then { s with elapsedTime := s.elapsedTime + 1 } else s

/-- The activity-transition log appended by the idle-check callback. -/
def activityLog (now : Nat) (username : String) (currentlyIdle : Bool)
    (isCameraOn : Bool) : SessionLog :=
  { id := toString now
    resourceId := username
    timestamp := now
    type := LogType.activity
    category := if currentlyIdle then "Idle" else "Work"
    isCameraOn := isCameraOn
    message :=
      if currentlyIdle then "Idle detected: Reducing analysis frequency"
      else "User Active: Resuming standard analysis"
    confidence := "low"
    thumbnail := none }

/-- Callback of the 5-second idle-check interval: outside `RECORDING` it
does nothing; otherwise it computes the current idleness from the
activity clock and, only on an edge transition, prepends one activity
log and flips `isIdle`. -/
def idleCheckTick (now : Nat) (username : String) (s : MonitorState) : MonitorState :=
  if s.status ≠ MonitoringState.RECORDING then s
  else
    let currentlyIdle : Bool := decide (now - s.lastActivity > IDLE_THRESHOLD)
    if s.isIdle = currentlyIdle then s
    else
      { s with
          logs := activityLog now username currentlyIdle s.isCameraEnabled :: s.logs
          isIdle := currentlyIdle }

/-- One idle poll together with the `useEffect` on `[isIdle, status]`
that re-runs `startAnalysisLoop` (switching the sampler cadence) after
an idleness flip while `RECORDING`. -/
def idleStep (now : Nat) (username : String) (s : MonitorState) : MonitorState :=
  let t := idleCheckTick now username s
  if t.status = MonitoringState.RECORDING ∧ t.isIdle ≠ s.isIdle then
    startAnalysisLoop t
  else t

/-- The log entry appended by one sampler tick. -/
def makeAnalysisLog (now : Nat) (username : String) (isCameraOn : Bool)
    (thumb : String) (result : AnalysisResult) : SessionLog :=
  { id := toString now
    resourceId := username
    timestamp := now
    type := if result.category == "Meeting" then LogType.meeting else LogType.activity
    category := result.category
    isCameraOn := isCameraOn
    message := result.summary
    confidence := result.riskLevel.str
    thumbnail := some thumb }

/-- Callback of the sampler interval: classifies the captured frame (and
optional audio) and prepends exactly one log built from the result. -/
def analysisTick (now : Nat) (username : String) (thumb : String) (img : String)
    (audio : Option AudioData) (o : GeminiOutcome) (s : MonitorState) : MonitorState :=
  let result := analyzeSessionContext img audio o
  { s with
      currentAnalysis := some result
      logs := makeAnalysisLog now username s.isCameraEnabled thumb result :: s.logs }

/-- The encoder produces data between timeslice deliveries; recorded
only while the recorder is in the `recording` state. -/
def encodeChunk (c : Nat) (s : MonitorState) : MonitorState :=
  if s.recorder = RecorderState.recording then { s with pendingChunk := some c } else s

/-- A 1-second timeslice `dataavailable`: pending encoder data of
positive size is pushed onto the chunk buffer. -/
def deliverChunk (s : MonitorState) : MonitorState :=
  match s.pendingChunk with
  | some c => { s with chunks := s.chunks ++ [c], pendingChunk := none }
  | none => s

/-- handleResumeSession: restores elapsed time and logs from the offered
recovery metadata, reloads the recovery chunk buffer from the durable
store, resets the activity clock and enters `PAUSED`.  It does not
touch `activeSessionId` (nor does the metadata carry one). -/
def handleResumeSession (now : Nat) (s : MonitorState) : MonitorState :=
  match s.recoveryMeta with
  | none => s
  | some meta =>
      { s with
          elapsedTime := meta.elapsedTime
          logs := meta.logs
          chunks := s.dbRecoveryChunks.getD []
          lastActivity := now
          status := MonitoringState.PAUSED
          recoveryMeta := none }

/-- stopMonitoring: stops every stream and loop (this is the only place
the 1-second ticker is cleared).  When the recorder is active, its
`onstop` handler — which runs after the encoder flushed its final
chunk — assembles the video from the post-flush buffer, saves it,
clears the recovery state, fires `onSessionComplete`, then saves the
final log list, and resets the in-memory session state.  When the
recorder is already inactive, only the in-memory reset happens and no
completion event fires. -/
def stopMonitoring (s : MonitorState) : MonitorState × List Event :=
  let s1 :=
    { s with
        streamActive := false
        cameraAcquired := false
        timerActive := false
        analysisFrequency := none }
  if s1.recorder ≠ RecorderState.inactive then
    let finalChunks := s1.chunks ++ s1.pendingChunk.toList
    ({ s1 with
        recorder := RecorderState.inactive
        pendingChunk := none
        elapsedTime := 0
        logs := []
        currentAnalysis := none
        chunks := []
        dbRecoveryChunks := none
        sessionMeta := none
        status := MonitoringState.IDLE
        isCameraEnabled := true
        isIdle := false },
      (if finalChunks.isEmpty then [] else [Event.saveVideo s1.activeSessionId finalChunks])
        ++ [Event.clearRecovery, Event.removeSessionMeta,
            Event.sessionComplete s1.activeSessionId s1.elapsedTime s1.logs
              (if finalChunks.isEmpty then none else some finalChunks)]
        ++ (if s1.logs.isEmpty then [] else [Event.saveLogs s1.activeSessionId s1.logs]))
  else
    ({ s1 with
        elapsedTime := 0
        logs := []
        currentAnalysis := none
        chunks := []
        sessionMeta := none
        status := MonitoringState.IDLE
        isCameraEnabled := true
        isIdle := false },
      [])

/-- One schedulable occurrence in the life of the engine: a user action,
an interval callback firing, encoder activity, or a page reload
(`remount`).  Callbacks of intervals that do not exist are no-ops in
`step`. -/
inductive Step
  | start (now : Nat) (o : StartOutcome) (freshId : String)
  | pause (now : Nat)
  | resume (now : Nat) (o : StartOutcome) (freshId : String)
  | stop
  | timer
  | idle (now : Nat)
  | sample (now : Nat) (thumb img : String) (audio : Option AudioData) (o : GeminiOutcome)
  | encode (c : Nat)
  | deliver
  | checkpoint (now : Nat)
  | recover (now : Nat)
  | remount (now : Nat) (freshId : String)
deriving DecidableEq, Repr

/-- Small-step semantics: the successor state and the emitted events.
A sampler tick only fires while the sampler interval exists; the
10-second checkpoint callback only acts while `RECORDING` or
`PAUSED`. -/
def step (username : String) (s : MonitorState) : Step → MonitorState × List Event
  | Step.start now o freshId => startMonitoring now o freshId s
  | Step.pause now => pauseMonitoring now s
  | Step.resume now o freshId => resumeMonitoring now o freshId s
  | Step.stop => stopMonitoring s
  | Step.timer => (timerTick s, [])
  | Step.idle now => (idleStep now username s, [])
  | Step.sample now thumb img audio o =>
      if s.analysisFrequency = none then (s, [])
      else (analysisTick now username thumb img audio o s, [])
  | Step.encode c => (encodeChunk c s, [])
  | Step.deliver => (deliverChunk s, [])
  | Step.checkpoint now =>
      if s.status = MonitoringState.RECORDING ∨ s.status = MonitoringState.PAUSED then
        saveSessionToStorage now s.elapsedTime s.logs s.chunks s
      else (s, [])
  | Step.recover now => (handleResumeSession now s, [])
  | Step.remount now freshId => (mountState freshId now s.sessionMeta s.dbRecoveryChunks, [])

/-- A run of the engine: final state and the concatenated event trace. -/
def run (username : String) (s : MonitorState) : List Step → MonitorState × List Event
  | [] => (s, [])
  | op :: rest =>
      let r1 := step username s op
      let r2 := run username r1.1 rest
      (r2.1, r1.2 ++ r2.2)

/-! ## Helpers for stating the properties -/

/-- The session id a durable write or completion event is keyed by. -/
def eventSessionKey : Event → Option String
  | Event.saveVideo k _ => some k
  | Event.saveLogs k _ => some k
  | Event.sessionComplete k _ _ _ => some k
  | _ => none

/-- Recogniser of the `onSessionComplete` event. -/
def isCompleteEvent : Event → Bool
  | Event.sessionComplete _ _ _ _ => true
  | _ => false

/-- Recogniser of a video save. -/
def isSaveVideoEvent : Event → Bool
  | Event.saveVideo _ _ => true
  | _ => false

/-- Recogniser of a logs save. -/
def isSaveLogsEvent : Event → Bool
  | Event.saveLogs _ _ => true
  | _ => false

/-- Key of a logs save, when the event is one. -/
def saveLogsKey : Event → Option String
  | Event.saveLogs k _ => some k
  | _ => none

/-- Key of a completion event, when the event is one. -/
def completeKey : Event → Option String
  | Event.sessionComplete k _ _ _ => some k
  | _ => none

/-- Steps that occur while one session is underway inside one mounted
component: everything except a fresh `start`, a `stop`, and a page
reload. -/
def SessionStep : Step → Prop
  | Step.pause _ => True
  | Step.resume _ _ _ => True
  | Step.timer => True
  | Step.idle _ => True
  | Step.sample _ _ _ _ _ => True
  | Step.encode _ => True
  | Step.deliver => True
  | Step.checkpoint _ => True
  | Step.recover _ => True
  | _ => False

/-- The wall-clock instant a step carries, when it carries one. -/
def stepTime : Step → Option Nat
  | Step.start now _ _ => some now
  | Step.pause now => some now
  | Step.resume now _ _ => some now
  | Step.idle now => some now
  | Step.sample now _ _ _ _ => some now
  | Step.checkpoint now => some now
  | Step.recover now => some now
  | Step.remount now _ => some now
  | _ => none

/-- The wall-clock instants along a step list are non-decreasing and
start no earlier than `t`. -/
def timesMono (t : Nat) : List Step → Prop
  | [] => True
  | op :: rest =>
      match stepTime op with
      | none => timesMono t rest
      | some n => t ≤ n ∧ timesMono n rest

/-- The last wall-clock bound after a step list. -/
def boundAfter (t : Nat) : List Step → Nat
  | [] => t
  | op :: rest => boundAfter ((stepTime op).getD t) rest

/-- A log list in newest-first order: timestamps are non-increasing
front to back. -/
def logsDesc (ls : List SessionLog) : Prop :=
  List.Pairwise (fun a b => b.timestamp ≤ a.timestamp) ls

/-- Every timestamp of the list is at most `t`. -/
def logsLE (t : Nat) (ls : List SessionLog) : Prop :=
  ∀ l ∈ ls, l.timestamp ≤ t

/-- The ordering invariant for a saved metadata snapshot. -/
def metaInv (t : Nat) : Option RecoveryMeta → Prop
  | none => True
  | some m => logsDesc m.logs ∧ logsLE t m.logs

/-- The ordering invariant of the engine at wall-clock bound `t`: the
live timeline, the localStorage snapshot and a pending recovery offer
are all newest-first with timestamps at most `t`. -/
def monitorInv (t : Nat) (s : MonitorState) : Prop :=
  logsDesc s.logs ∧ logsLE t s.logs ∧ metaInv t s.sessionMeta ∧ metaInv t s.recoveryMeta

/-! ## Concrete scenario fixtures used by counterexamples and witnesses -/

/-- A freshly mounted component with no recovery data. -/
def monitor0 : MonitorState := mountState "s0" 0 none none

/-- A benign classification result. -/
def sampleResult : AnalysisResult :=
  { summary := "coding stuff", category := "Coding", riskLevel := RiskLevel.low }

/-- A second benign classification result. -/
def sampleResult2 : AnalysisResult :=
  { summary := "more coding", category := "Coding", riskLevel := RiskLevel.low }

/-- A minimal complete session: start, one sampler tick, one encoded
chunk, stop — short enough that no 10-second checkpoint ever fired. -/
def shortSessionOps : List Step :=
  [Step.start 0 StartOutcome.ok "s1",
   Step.sample 5 "t1" "i1" none (GeminiOutcome.good sampleResult),
   Step.encode 7,
   Step.stop]

/-- Event trace of the minimal session. -/
def shortSessionTrace : List Event := (run "u" monitor0 shortSessionOps).2

/-- A session with two sampler ticks at increasing instants. -/
def twoSampleOps : List Step :=
  [Step.start 0 StartOutcome.ok "s1",
   Step.sample 100 "t1" "i1" none (GeminiOutcome.good sampleResult),
   Step.sample 200 "t2" "i2" none (GeminiOutcome.good sampleResult2),
   Step.encode 7,
   Step.stop]

/-- Event trace of the two-tick session. -/
def twoSampleTrace : List Event := (run "u" monitor0 twoSampleOps).2

/-- A session that is checkpointed, interrupted by a page reload
(remount with a freshly generated id), recovered, resumed and
stopped. -/
def crashOps : List Step :=
  [Step.start 0 StartOutcome.ok "s1",
   Step.sample 5 "t1" "i1" none (GeminiOutcome.good sampleResult),
   Step.checkpoint 10,
   Step.remount 20 "s2",
   Step.recover 21,
   Step.resume 22 StartOutcome.ok "s3",
   Step.checkpoint 30,
   Step.encode 7,
   Step.stop]

/-- Event trace of the interrupted-and-recovered session. -/
def crashTrace : List Event := (run "u" monitor0 crashOps).2

/-- The engine right after a successful start from the fresh mount. -/
def recordingState : MonitorState := (startMonitoring 0 StartOutcome.ok "w1" monitor0).1

/-- A recording state with one delivered chunk and one not-yet-delivered
encoder chunk. -/
def flushState : MonitorState :=
  { recordingState with chunks := [1], pendingChunk := some 5 }

/-- The single log of the minimal session (created at instant 5). -/
def shortLog : SessionLog := makeAnalysisLog 5 "u" true "t1" sampleResult

/-- The newer log of the two-tick session (created at instant 200). -/
def twoLogNew : SessionLog := makeAnalysisLog 200 "u" true "t2" sampleResult2

/-- The older log of the two-tick session (created at instant 100). -/
def twoLogOld : SessionLog := makeAnalysisLog 100 "u" true "t1" sampleResult

/-! ## Claim theorems -/

/-- Claim C10: for every session list and user filter, the analytics
overview satisfies `cameraDuration ≤ totalDuration` (the per-log
camera-time estimate is clamped by `Math.min`) and
`cameraDuration ≥ 0`. -/
theorem analytics_camera_duration_clamped (sessions : List RecordedSession)
    (selectedAnalyticsUser : String) :
    (analyticsOverview sessions selectedAnalyticsUser).cameraDuration
      ≤ (analyticsOverview sessions selectedAnalyticsUser).totalDuration
    ∧ 0 ≤ (analyticsOverview sessions selectedAnalyticsUser).cameraDuration := by
  constructor
  · simp only [analyticsOverview]
    exact Nat.min_le_right _ _
  · exact Nat.zero_le _

/-- Claim C9 (counterexample): a request error of the underlying get
makes all three reads reject to the caller — `getVideoFromDB` does not
resolve to `undefined`, and `getLogsFromDB` / `loadRecoveryChunks` do
not resolve to an empty list, contrary to the claim that every failing
storage operation degrades gracefully. -/
theorem db_request_error_rejects :
    getVideoFromDB "s" DBOutcome.reqFail = Except.error DBError.requestError
    ∧ getLogsFromDB "s" DBOutcome.reqFail = Except.error DBError.requestError
    ∧ loadRecoveryChunks DBOutcome.reqFail = Except.error DBError.requestError :=
  ⟨rfl, rfl, rfl⟩

/-- Claim C9 (amended): the durable-store reads degrade gracefully on an
open failure (`getVideoFromDB` resolves `undefined`, the list reads
resolve `[]`) and on a missing record, but a request error rejects to
the caller, because the inner promise is returned from the try block
without await and its rejection bypasses the catch clause. -/
theorem db_reads_graceful_only_on_open_failure (sessionId : String) :
    getVideoFromDB sessionId DBOutcome.openFail = Except.ok none
    ∧ getLogsFromDB sessionId DBOutcome.openFail = Except.ok []
    ∧ loadRecoveryChunks DBOutcome.openFail = Except.ok []
    ∧ getVideoFromDB sessionId (DBOutcome.success none) = Except.ok none
    ∧ getLogsFromDB sessionId (DBOutcome.success none) = Except.ok []
    ∧ loadRecoveryChunks (DBOutcome.success none) = Except.ok []
    ∧ (∀ v, getVideoFromDB sessionId (DBOutcome.success v) = Except.ok v)
    ∧ getVideoFromDB sessionId DBOutcome.reqFail = Except.error DBError.requestError
    ∧ getLogsFromDB sessionId DBOutcome.reqFail = Except.error DBError.requestError
    ∧ loadRecoveryChunks DBOutcome.reqFail = Except.error DBError.requestError :=
  ⟨rfl, rfl, rfl, rfl, rfl, rfl, fun _ => rfl, rfl, rfl, rfl⟩

/-- Claim C6: `analyzeSessionContext` never propagates a failure — any
throwing attempt resolves to the fallback result with risk level `low`
and the fallback summary — and one sampler tick appends exactly one log
entry, which on failure carries confidence `low` and the fallback
summary. -/
theorem classification_fallback_one_log_per_tick
    (img : String) (audio : Option AudioData) (o : GeminiOutcome)
    (s : MonitorState) (now : Nat) (username thumb : String)
    (hrun : s.analysisFrequency ≠ none) :
    (∀ e, analyzeAttempt img audio o = Except.error e →
        analyzeSessionContext img audio o = geminiFallback
        ∧ (analyzeSessionContext img audio o).riskLevel = RiskLevel.low
        ∧ (analyzeSessionContext img audio o).summary
            = "AI analysis temporarily unavailable.")
    ∧ (step username s (Step.sample now thumb img audio o)).1.logs.length
        = s.logs.length + 1
    ∧ (∀ e, analyzeAttempt img audio o = Except.error e →
        ((step username s (Step.sample now thumb img audio o)).1.logs.head?.map
            (fun l => l.confidence)) = some "low"
        ∧ ((step username s (Step.sample now thumb img audio o)).1.logs.head?.map
            (fun l => l.message)) = some "AI analysis temporarily unavailable.") := by
  refine ⟨?_, ?_, ?_⟩
  · intro e he
    cases o <;> simp [analyzeAttempt] at he <;>
      simp [analyzeSessionContext, analyzeAttempt, geminiFallback]
  · simp [step, hrun, analysisTick]
  · intro e he
    cases o <;> simp [analyzeAttempt] at he <;>
      simp [step, hrun, analysisTick, makeAnalysisLog, analyzeSessionContext,
        analyzeAttempt, geminiFallback, RiskLevel.str]

/-- Claim C6 (witness): with the sampler running, a failing remote call
still resolves to a low-risk fallback result. -/
theorem classification_fallback_one_log_per_tick_witness :
    (analyzeSessionContext "i" none GeminiOutcome.remoteError).riskLevel = RiskLevel.low :=
  ((classification_fallback_one_log_per_tick "i" none GeminiOutcome.remoteError
      recordingState 3 "u" "t" (by decide)).1 "generateContent failed" rfl).2.1

/-- Claim C5: on stop, the final video payload is assembled from the
chunk buffer only inside the recorder completion handler, i.e. after
the encoder flushed its last pending chunk: the saved video consists of
the delivered chunks followed by the flushed pending chunk, and when a
pending chunk exists this differs from the buffer contents at the
moment stop was called. -/
theorem final_video_assembled_after_flush (s : MonitorState)
    (h : s.recorder ≠ RecorderState.inactive) :
    ((s.chunks ++ s.pendingChunk.toList).isEmpty = false →
        Event.saveVideo s.activeSessionId (s.chunks ++ s.pendingChunk.toList)
          ∈ (stopMonitoring s).2)
    ∧ ((stopMonitoring s).2.countP isSaveVideoEvent
        = if (s.chunks ++ s.pendingChunk.toList).isEmpty then 0 else 1)
    ∧ (∀ c, s.pendingChunk = some c → s.chunks ++ s.pendingChunk.toList ≠ s.chunks) := by
  refine ⟨?_, ?_, ?_⟩
  · intro hne
    simp [stopMonitoring, h, hne]
  · by_cases hne : (s.chunks ++ s.pendingChunk.toList).isEmpty <;>
      simp [stopMonitoring, h, hne, isSaveVideoEvent, isCompleteEvent,
        List.countP_append, List.countP_cons]
  · intro c hc heq
    have hlen := congrArg List.length heq
    simp [hc] at hlen

/-- Claim C5 (witness): stopping a recorder with delivered chunk 1 and
un-flushed pending chunk 5 saves a video made of both. -/
theorem final_video_assembled_after_flush_witness :
    Event.saveVideo "w1" [1, 5] ∈ (stopMonitoring flushState).2 :=
  (final_video_assembled_after_flush flushState (by decide)).1 (by decide)

/-- Claim C4 (counterexample): in the minimal session (too short for any
periodic checkpoint) the completion event fires exactly once, but the
single logs save occurs strictly after it and no logs save precedes it,
so the event is not fired `after persistence of ... logs has been
initiated` as claimed. -/
theorem session_logs_saved_only_after_complete :
    shortSessionTrace.countP isCompleteEvent = 1
    ∧ shortSessionTrace.countP isSaveLogsEvent = 1
    ∧ (shortSessionTrace.takeWhile (fun e => !isCompleteEvent e)).countP isSaveLogsEvent
        = 0 := by
  refine ⟨by decide, by decide, by decide⟩

/-- Claim C4 (amended): stopping a session whose recorder is active fires
the completion event exactly once, with that session's id, in-memory
duration and log list; the video save (when there are chunks) is
initiated before the event, while the completion handler's logs save is
initiated after it. -/
theorem session_complete_fired_once_after_video_save (s : MonitorState)
    (h : s.recorder ≠ RecorderState.inactive) :
    ((stopMonitoring s).2.countP isCompleteEvent = 1)
    ∧ (Event.sessionComplete s.activeSessionId s.elapsedTime s.logs
        (if (s.chunks ++ s.pendingChunk.toList).isEmpty then none
         else some (s.chunks ++ s.pendingChunk.toList)) ∈ (stopMonitoring s).2)
    ∧ (((stopMonitoring s).2.takeWhile (fun e => !isCompleteEvent e)).countP
          isSaveVideoEvent
        = if (s.chunks ++ s.pendingChunk.toList).isEmpty then 0 else 1) := by
  refine ⟨?_, ?_, ?_⟩
  · by_cases hne : (s.chunks ++ s.pendingChunk.toList).isEmpty <;>
      simp [stopMonitoring, h, hne, isCompleteEvent, List.countP_append,
        List.countP_cons]
  · by_cases hne : (s.chunks ++ s.pendingChunk.toList).isEmpty <;>
      simp [stopMonitoring, h, hne]
  · by_cases hne : (s.chunks ++ s.pendingChunk.toList).isEmpty <;>
      simp [stopMonitoring, h, hne, isCompleteEvent, isSaveVideoEvent,
        List.takeWhile, List.countP_append, List.countP_cons]

/-- Claim C4 (witness): stopping the concrete recording state with a
pending chunk fires its completion event. -/
theorem session_complete_fired_once_after_video_save_witness :
    (stopMonitoring flushState).2.countP isCompleteEvent = 1 :=
  (session_complete_fired_once_after_video_save flushState (by decide)).1

/-- Claim C8 (counterexample): when a startup step throws after the
camera/microphone stream was acquired, the state stays Idle but the
acquired stream is NOT released — its tracks are still live after the
failure, contrary to the claim that partially-acquired resources are
released. -/
theorem start_failure_camera_not_released :
    ((startMonitoring 0 StartOutcome.failAfterCamera "s1" monitor0).1.cameraAcquired
        = true)
    ∧ ((startMonitoring 0 StartOutcome.failAfterCamera "s1" monitor0).1.status
        = MonitoringState.IDLE)
    ∧ (Event.alertError ∈ (startMonitoring 0 StartOutcome.failAfterCamera "s1" monitor0).2) := by
  refine ⟨by decide, by decide, by decide⟩

/-- Claim C8 (amended): a failing acquisition or startup step surfaces a
user-facing alert and leaves the state machine at Idle, but the failure
handler releases nothing: a camera/microphone stream acquired before
the failure keeps its live tracks. -/
theorem start_failure_idle_but_camera_unreleased (s : MonitorState) (now : Nat)
    (freshId : String) (hidle : s.status = MonitoringState.IDLE) :
    ((startMonitoring now StartOutcome.failAfterCamera freshId s).1.status
        = MonitoringState.IDLE)
    ∧ ((startMonitoring now StartOutcome.failAfterCamera freshId s).1.cameraAcquired
        = true)
    ∧ (Event.alertError ∈ (startMonitoring now StartOutcome.failAfterCamera freshId s).2)
    ∧ ((startMonitoring now StartOutcome.failBeforeCamera freshId s).1.status
        = MonitoringState.IDLE)
    ∧ ((startMonitoring now StartOutcome.failBeforeCamera freshId s).1.cameraAcquired
        = s.cameraAcquired)
    ∧ (Event.alertError ∈ (startMonitoring now StartOutcome.failBeforeCamera freshId s).2) := by
  simp [startMonitoring, hidle]

/-- Claim C8 (witness): instantiation of the failure behaviour at the
fresh mount. -/
theorem start_failure_idle_but_camera_unreleased_witness :
    (startMonitoring 3 StartOutcome.failAfterCamera "f1" monitor0).1.cameraAcquired
      = true :=
  (start_failure_idle_but_camera_unreleased monitor0 3 "f1" (by decide)).2.1

/-- Claim C1 (counterexample): start a session, pause it, and let the
1-second interval fire once — the state is Paused and the elapsed-time
counter has increased from 0 to 1, so the counter is not frozen during
Paused and the ticker was not cleared by the Recording-to-Paused
transition. -/
theorem duration_not_frozen_during_pause :
    ((step "u" ((step "u" recordingState (Step.pause 5)).1) Step.timer).1.status
        = MonitoringState.PAUSED)
    ∧ ((step "u" recordingState (Step.pause 5)).1.elapsedTime = 0)
    ∧ ((step "u" ((step "u" recordingState (Step.pause 5)).1) Step.timer).1.elapsedTime
        = 1)
    ∧ ((step "u" ((step "u" recordingState (Step.pause 5)).1) Step.timer).1.timerActive
        = true) := by
  refine ⟨by decide, by decide, by decide, by decide⟩

/-- Projections of the state after `pauseMonitoring`: the status becomes
Paused, the sampler interval is cleared, and the ticker flag and the
elapsed time are untouched. -/
theorem pauseMonitoring_projections (now : Nat) (s : MonitorState) :
    (pauseMonitoring now s).1.status = MonitoringState.PAUSED
    ∧ (pauseMonitoring now s).1.analysisFrequency = none
    ∧ (pauseMonitoring now s).1.timerActive = s.timerActive
    ∧ (pauseMonitoring now s).1.elapsedTime = s.elapsedTime := by
  simp only [pauseMonitoring, saveSessionToStorage]
  split_ifs <;> simp

/-- Claim C1 (amended): the Recording-to-Paused transition pauses the
recorder and clears only the analysis sampler interval, not the
1-second ticker: the ticker survives the transition and keeps
incrementing `elapsedTime` while Paused, so the duration reported at
completion includes wall-clock time spent Paused; the ticker is cleared
only by stop. -/
theorem pause_keeps_ticker_running (s : MonitorState) (now : Nat)
    (h : s.timerActive = true) :
    ((pauseMonitoring now s).1.status = MonitoringState.PAUSED)
    ∧ ((pauseMonitoring now s).1.analysisFrequency = none)
    ∧ ((pauseMonitoring now s).1.timerActive = true)
    ∧ ((timerTick (pauseMonitoring now s).1).elapsedTime = s.elapsedTime + 1)
    ∧ ((stopMonitoring s).1.timerActive = false) := by
  obtain ⟨hs, hf, ht, he⟩ := pauseMonitoring_projections now s
  refine ⟨hs, hf, ht.trans h, ?_, ?_⟩
  · rw [timerTick, if_pos (ht.trans h), he]
  · simp only [stopMonitoring]
    split <;> rfl

/-- Claim C1 (witness): instantiation at the concrete recording state. -/
theorem pause_keeps_ticker_running_witness :
    (timerTick (pauseMonitoring 5 recordingState).1).elapsedTime
      = recordingState.elapsedTime + 1 :=
  (pause_keeps_ticker_running recordingState 5 (by decide)).2.2.2.1

/-- Claim C7: the idle detector polls every 5 seconds against a 5-minute
threshold; while Recording, an edge transition of idleness prepends
exactly one `activity` log, flips the idle flag and switches the
sampler interval to 60 seconds (idle) or 15 seconds (active); a poll
without an edge changes nothing at all (so no log per subsequent
tick). -/
theorem idle_edge_single_log_and_cadence (s : MonitorState) (now : Nat)
    (username : String) (hrec : s.status = MonitoringState.RECORDING) :
    IDLE_POLL_MS = 5000
    ∧ IDLE_THRESHOLD = 5 * 60 * 1000
    ∧ (s.isIdle ≠ decide (now - s.lastActivity > IDLE_THRESHOLD) →
        (idleStep now username s).logs.length = s.logs.length + 1
        ∧ ((idleStep now username s).logs.head?.map (fun l => l.type))
            = some LogType.activity
        ∧ (idleStep now username s).isIdle
            = decide (now - s.lastActivity > IDLE_THRESHOLD)
        ∧ (idleStep now username s).analysisFrequency
            = some (if now - s.lastActivity > IDLE_THRESHOLD then 60000 else 15000))
    ∧ (s.isIdle = decide (now - s.lastActivity > IDLE_THRESHOLD) →
        idleStep now username s = s) := by
  refine ⟨rfl, rfl, ?_, ?_⟩
  · intro hne
    by_cases hi : now - s.lastActivity > IDLE_THRESHOLD <;>
      simp [hi] at hne <;>
      simp [idleStep, idleCheckTick, startAnalysisLoop, activityLog, hrec, hi, hne]
  · intro heq
    by_cases hi : now - s.lastActivity > IDLE_THRESHOLD <;>
      simp [hi] at heq <;>
      simp [idleStep, idleCheckTick, hrec, hi, heq]

/-- Claim C7 (witness): with no interaction since instant 0, a poll at
instant 400000 (past the 5-minute threshold) while Recording switches
the sampler to the 60-second cadence. -/
theorem idle_edge_single_log_and_cadence_witness :
    (idleStep 400000 "u" recordingState).analysisFrequency = some 60000
    ∧ (idleStep 400000 "u" recordingState).logs.length
        = recordingState.logs.length + 1 := by
  have h := (idle_edge_single_log_and_cadence recordingState 400000 "u"
    (by decide)).2.2.1 (by decide)
  refine ⟨?_, h.1⟩
  have := h.2.2.2
  simpa using this

/-- Every keyed event emitted by `stopMonitoring` (video save, final
logs save, completion) is keyed by the current `activeSessionId`. -/
theorem stop_events_keyed (s : MonitorState) :
    ∀ e ∈ (stopMonitoring s).2,
      eventSessionKey e = none ∨ eventSessionKey e = some s.activeSessionId := by
  intro e he
  by_cases hr : s.recorder = RecorderState.inactive
  · simp [stopMonitoring, hr] at he
  · by_cases hne : (s.chunks ++ s.pendingChunk.toList).isEmpty
    · by_cases hl : s.logs.isEmpty
      · simp [stopMonitoring, hr, hne, hl] at he
        rcases he with rfl | rfl | rfl <;> simp [eventSessionKey]
      · simp [stopMonitoring, hr, hne, hl] at he
        rcases he with rfl | rfl | rfl | rfl <;> simp [eventSessionKey]
    · by_cases hl : s.logs.isEmpty
      · simp [stopMonitoring, hr, hne, hl] at he
        rcases he with rfl | rfl | rfl | rfl <;> simp [eventSessionKey]
      · simp [stopMonitoring, hr, hne, hl] at he
        rcases he with rfl | rfl | rfl | rfl | rfl <;> simp [eventSessionKey]

/-- One in-session step (no fresh start, no stop, no reload) keeps the
session id, keeps the engine out of Idle, and keys every emitted
durable write by the current session id. -/
theorem sessionStep_preserves (username : String) (s : MonitorState) (op : Step)
    (hop : SessionStep op) (hstat : s.status ≠ MonitoringState.IDLE) :
    (step username s op).1.activeSessionId = s.activeSessionId
    ∧ (step username s op).1.status ≠ MonitoringState.IDLE
    ∧ ∀ e ∈ (step username s op).2,
        eventSessionKey e = none ∨ eventSessionKey e = some s.activeSessionId := by
  cases op with
  | start now o freshId => exact hop.elim
  | stop => exact hop.elim
  | remount now freshId => exact hop.elim
  | pause now =>
      refine ⟨?_, ?_, ?_⟩
      · simp only [step, pauseMonitoring, saveSessionToStorage]
        split_ifs <;> rfl
      · simp only [step, pauseMonitoring, saveSessionToStorage]
        split_ifs <;> simp
      · intro e he
        simp only [step, pauseMonitoring, saveSessionToStorage] at he
        by_cases hc :
            (if s.recorder = RecorderState.recording then
              { s with recorder := RecorderState.paused } else s).chunks.isEmpty <;>
          by_cases hl :
            (if s.recorder = RecorderState.recording then
              { s with recorder := RecorderState.paused } else s).logs.isEmpty <;>
          split_ifs at he hc hl <;> simp [hc, hl] at he <;>
          (rcases he with rfl | rfl <;> simp [eventSessionKey])
  | resume now o freshId =>
      by_cases hsa : s.streamActive
      · refine ⟨?_, ?_, ?_⟩ <;>
          simp [step, resumeMonitoring, startAnalysisLoop, hsa] <;>
          split_ifs <;> simp
      · cases o <;>
          refine ⟨?_, ?_, ?_⟩ <;>
          simp [step, resumeMonitoring, startMonitoring, startAnalysisLoop, hsa,
            hstat, eventSessionKey]
  | timer =>
      refine ⟨?_, ?_, ?_⟩ <;> simp only [step, timerTick] <;> (try split_ifs) <;>
        simp [hstat]
  | idle now =>
      refine ⟨?_, ?_, ?_⟩ <;>
        simp only [step, idleStep, idleCheckTick, startAnalysisLoop] <;>
        (try split_ifs) <;> simp [hstat]
  | sample now thumb img audio o =>
      by_cases hf : s.analysisFrequency = none <;>
        refine ⟨?_, ?_, ?_⟩ <;>
        simp [step, analysisTick, hf, hstat]
  | encode c =>
      refine ⟨?_, ?_, ?_⟩ <;> simp only [step, encodeChunk] <;> (try split_ifs) <;>
        simp [hstat]
  | deliver =>
      refine ⟨?_, ?_, ?_⟩ <;> simp only [step, deliverChunk] <;>
        rcases s.pendingChunk with _ | c <;> simp [hstat]
  | checkpoint now =>
      by_cases hc : s.status = MonitoringState.RECORDING ∨ s.status = MonitoringState.PAUSED
      · refine ⟨?_, ?_, ?_⟩
        · simp only [step, saveSessionToStorage, if_pos hc]
          split_ifs <;> rfl
        · simp only [step, saveSessionToStorage, if_pos hc]
          split_ifs <;> simp [hstat]
        · intro e he
          simp only [step, saveSessionToStorage, if_pos hc] at he
          by_cases hce : s.chunks.isEmpty <;> by_cases hl : s.logs.isEmpty <;>
            simp [hce, hl] at he <;>
            (rcases he with rfl | rfl <;> simp [eventSessionKey])
      · refine ⟨?_, ?_, ?_⟩ <;> simp [step, if_neg hc, hstat]
  | recover now =>
      refine ⟨?_, ?_, ?_⟩ <;>
        simp only [step, handleResumeSession] <;>
        rcases s.recoveryMeta with _ | m <;> simp [hstat]

/-- Along any list of in-session steps, the session id is invariant, the
engine never returns to Idle, and every keyed event in the trace is
keyed by the initial session id. -/
theorem run_session_preserves (username : String) :
    ∀ (ops : List Step) (s : MonitorState),
      s.status ≠ MonitoringState.IDLE →
      (∀ op ∈ ops, SessionStep op) →
      (run username s ops).1.activeSessionId = s.activeSessionId
      ∧ (run username s ops).1.status ≠ MonitoringState.IDLE
      ∧ ∀ e ∈ (run username s ops).2,
          eventSessionKey e = none ∨ eventSessionKey e = some s.activeSessionId := by
  intro ops
  induction ops with
  | nil =>
      intro s hstat _
      exact ⟨rfl, hstat, by simp [run]⟩
  | cons op rest ih =>
      intro s hstat hops
      have h1 := sessionStep_preserves username s op (hops op (by simp)) hstat
      have h2 := ih (step username s op).1 h1.2.1 (fun o ho => hops o (by simp [ho]))
      refine ⟨?_, ?_, ?_⟩
      · simp only [run]
        exact h2.1.trans h1.1
      · simp only [run]
        exact h2.2.1
      · simp only [run]
        intro e he
        rcases List.mem_append.mp he with h | h
        · exact h1.2.2 e h
        · rcases h2.2.2 e h with hk | hk
          · exact Or.inl hk
          · exact Or.inr (by rw [hk, h1.1])

/-- Claim C2 (counterexample): a session started under id `s1` is
checkpointed under `s1`; after a page reload the component mounts with
a fresh id `s2` and the recovery metadata carries no id, so the
recovered session is resumed, checkpointed and completed under `s2` —
the id handed to `onSessionComplete` differs from the id under which
the pre-crash logs were checkpointed. -/
theorem recovery_changes_session_id :
    crashTrace.filterMap saveLogsKey = ["s1", "s2", "s2"]
    ∧ crashTrace.filterMap completeKey = ["s2"]
    ∧ ("s1" : String) ≠ "s2" :=
  ⟨by decide, by decide, by decide⟩

/-- Claim C2 (amended): within one mounted component the claim holds:
the session id is minted exactly when `startMonitoring` runs from Idle,
no in-session step (pause, resume — including the resume fallback that
re-acquires media — ticks, checkpoints, or recovery adoption) changes
it, every durable write during the session is keyed by it, and the
final stop keys its completion event and saves by it.  Across a reload,
however, the recovered session continues under the new mount's freshly
generated id, so pre-crash checkpoints remain under the old id. -/
theorem session_id_stable_within_mount (username : String) (s : MonitorState)
    (ops : List Step) (hstat : s.status ≠ MonitoringState.IDLE)
    (hops : ∀ op ∈ ops, SessionStep op) :
    (run username s ops).1.activeSessionId = s.activeSessionId
    ∧ (∀ e ∈ (run username s ops).2,
        eventSessionKey e = none ∨ eventSessionKey e = some s.activeSessionId)
    ∧ (∀ e ∈ (stopMonitoring (run username s ops).1).2,
        eventSessionKey e = none ∨ eventSessionKey e = some s.activeSessionId)
    ∧ (∀ (now : Nat) (o : StartOutcome) (freshId : String) (s2 : MonitorState),
        s2.status = MonitoringState.IDLE →
        (startMonitoring now o freshId s2).1.activeSessionId = freshId) := by
  have h := run_session_preserves username ops s hstat hops
  refine ⟨h.1, h.2.2, ?_, ?_⟩
  · intro e he
    rcases stop_events_keyed (run username s ops).1 e he with hk | hk
    · exact Or.inl hk
    · exact Or.inr (by rw [hk, h.1])
  · intro now o freshId s2 h2
    cases o <;> simp [startMonitoring, startAnalysisLoop, h2]

/-- Claim C2 (witness): a pause followed by a resume leaves the concrete
recording session's id unchanged. -/
theorem session_id_stable_within_mount_witness :
    (run "u" recordingState
        [Step.pause 1, Step.resume 2 StartOutcome.ok "z"]).1.activeSessionId
      = recordingState.activeSessionId :=
  (session_id_stable_within_mount "u" recordingState
      [Step.pause 1, Step.resume 2 StartOutcome.ok "z"]
      (by decide)
      (by intro op hop
          simp at hop
          rcases hop with rfl | rfl <;> trivial)).1

/-- Bounded timestamps stay bounded at a later instant. -/
theorem logsLE_mono {t n : Nat} {ls : List SessionLog} (h : logsLE t ls)
    (htn : t ≤ n) : logsLE n ls :=
  fun l hl => le_trans (h l hl) htn

/-- The snapshot invariant is monotone in the bound. -/
theorem metaInv_mono {t n : Nat} {m : Option RecoveryMeta} (h : metaInv t m)
    (htn : t ≤ n) : metaInv n m := by
  cases m with
  | none => trivial
  | some mm => exact ⟨h.1, logsLE_mono h.2 htn⟩

/-- The engine invariant is monotone in the bound. -/
theorem monitorInv_mono {t n : Nat} {s : MonitorState} (h : monitorInv t s)
    (htn : t ≤ n) : monitorInv n s :=
  ⟨h.1, logsLE_mono h.2.1 htn, metaInv_mono h.2.2.1 htn, metaInv_mono h.2.2.2 htn⟩

/-- Thumbnail stripping preserves the newest-first ordering. -/
theorem logsDesc_strip {ls : List SessionLog} (h : logsDesc ls) :
    logsDesc (ls.map stripThumbnail) := by
  induction h with
  | nil => exact List.Pairwise.nil
  | cons hx _ ih =>
      refine List.Pairwise.cons ?_ ih
      intro b hb
      rcases List.mem_map.mp hb with ⟨a, ha, rfl⟩
      exact hx a ha

/-- Thumbnail stripping preserves the timestamp bound. -/
theorem logsLE_strip {t : Nat} {ls : List SessionLog} (h : logsLE t ls) :
    logsLE t (ls.map stripThumbnail) := by
  intro l hl
  rcases List.mem_map.mp hl with ⟨a, ha, rfl⟩
  exact h a ha

/-- Prepending a log no older than every existing log preserves the
newest-first ordering. -/
theorem logsDesc_cons {x : SessionLog} {ls : List SessionLog} (hd : logsDesc ls)
    (hle : logsLE x.timestamp ls) : logsDesc (x :: ls) :=
  List.Pairwise.cons (fun b hb => hle b hb) hd

/-- The engine invariant only depends on the timeline and the two
snapshot slots. -/
theorem monitorInv_congr {n : Nat} {s s2 : MonitorState} (h : monitorInv n s)
    (hl : s2.logs = s.logs) (hm : s2.sessionMeta = s.sessionMeta)
    (hr : s2.recoveryMeta = s.recoveryMeta) : monitorInv n s2 := by
  unfold monitorInv at h ⊢
  rw [hl, hm, hr]
  exact h

/-- One step at an instant no earlier than the current bound preserves
the engine ordering invariant at the step's instant. -/
theorem step_preserves_inv (username : String) (s : MonitorState) (op : Step)
    (t : Nat) (hinv : monitorInv t s) (hb : t ≤ (stepTime op).getD t) :
    monitorInv ((stepTime op).getD t) (step username s op).1 := by
  cases op with
  | start now o freshId =>
      refine monitorInv_congr (monitorInv_mono hinv hb) ?_ ?_ ?_ <;>
        (cases o <;> simp [step, startMonitoring, startAnalysisLoop] <;>
          (try split_ifs) <;> rfl)
  | pause now =>
      obtain ⟨hd, hle, hsm, hrm⟩ := hinv
      have hlogs : (step username s (Step.pause now)).1.logs = s.logs := by
        simp only [step, pauseMonitoring, saveSessionToStorage]
        split_ifs <;> rfl
      have hsm2 : (step username s (Step.pause now)).1.sessionMeta
          = some ⟨s.elapsedTime, s.logs.map stripThumbnail, now⟩ := by
        simp only [step, pauseMonitoring, saveSessionToStorage]
        split_ifs <;> rfl
      have hrm2 : (step username s (Step.pause now)).1.recoveryMeta
          = s.recoveryMeta := by
        simp only [step, pauseMonitoring, saveSessionToStorage]
        split_ifs <;> rfl
      refine ⟨?_, ?_, ?_, ?_⟩
      · rw [hlogs]; exact hd
      · rw [hlogs]; exact logsLE_mono hle hb
      · rw [hsm2]
        exact ⟨logsDesc_strip hd, logsLE_mono (logsLE_strip hle) hb⟩
      · rw [hrm2]; exact metaInv_mono hrm hb
  | resume now o freshId =>
      refine monitorInv_congr (monitorInv_mono hinv hb) ?_ ?_ ?_ <;>
        (by_cases hsa : s.streamActive <;> cases o <;>
          simp [step, resumeMonitoring, startMonitoring, startAnalysisLoop, hsa] <;>
          (try split_ifs) <;> rfl)
  | stop =>
      obtain ⟨hd, hle, hsm, hrm⟩ := hinv
      have hlogs : (step username s Step.stop).1.logs = [] := by
        simp only [step, stopMonitoring]
        split <;> rfl
      have hsm2 : (step username s Step.stop).1.sessionMeta = none := by
        simp only [step, stopMonitoring]
        split <;> rfl
      have hrm2 : (step username s Step.stop).1.recoveryMeta = s.recoveryMeta := by
        simp only [step, stopMonitoring]
        split <;> rfl
      refine ⟨?_, ?_, ?_, ?_⟩
      · rw [hlogs]; exact List.Pairwise.nil
      · rw [hlogs]; intro l hl; cases hl
      · rw [hsm2]; trivial
      · rw [hrm2]; exact metaInv_mono hrm hb
  | timer =>
      refine monitorInv_congr (monitorInv_mono hinv hb) ?_ ?_ ?_ <;>
        (simp only [step, timerTick] <;> split_ifs <;> rfl)
  | idle now =>
      obtain ⟨hd, hle, hsm, hrm⟩ := monitorInv_mono hinv hb
      by_cases hs : s.status = MonitoringState.RECORDING
      · by_cases hi : s.isIdle = decide (now - s.lastActivity > IDLE_THRESHOLD)
        · refine monitorInv_congr ⟨hd, hle, hsm, hrm⟩ ?_ ?_ ?_ <;>
            simp [step, idleStep, idleCheckTick, hs, ← hi]
        · have hi2 : ¬ decide (now - s.lastActivity > IDLE_THRESHOLD) = s.isIdle :=
            fun hEq => hi hEq.symm
          have hlogs : (step username s (Step.idle now)).1.logs
              = activityLog now username
                  (decide (now - s.lastActivity > IDLE_THRESHOLD))
                  s.isCameraEnabled :: s.logs := by
            simp [step, idleStep, idleCheckTick, startAnalysisLoop, hs, hi, hi2]
          have hsm2 : (step username s (Step.idle now)).1.sessionMeta
              = s.sessionMeta := by
            simp [step, idleStep, idleCheckTick, startAnalysisLoop, hs, hi, hi2]
          have hrm2 : (step username s (Step.idle now)).1.recoveryMeta
              = s.recoveryMeta := by
            simp [step, idleStep, idleCheckTick, startAnalysisLoop, hs, hi, hi2]
          refine ⟨?_, ?_, ?_, ?_⟩
          · rw [hlogs]; exact logsDesc_cons hd hle
          · rw [hlogs]
            intro l hl
            rcases List.mem_cons.mp hl with rfl | hl2
            · exact Nat.le_refl _
            · exact hle l hl2
          · rw [hsm2]; exact hsm
          · rw [hrm2]; exact hrm
      · refine monitorInv_congr ⟨hd, hle, hsm, hrm⟩ ?_ ?_ ?_ <;>
          simp [step, idleStep, idleCheckTick, hs]
  | sample now thumb img audio o =>
      by_cases hf : s.analysisFrequency = none
      · refine monitorInv_congr (monitorInv_mono hinv hb) ?_ ?_ ?_ <;>
          simp [step, hf]
      · obtain ⟨hd, hle, hsm, hrm⟩ := monitorInv_mono hinv hb
        have hlogs : (step username s (Step.sample now thumb img audio o)).1.logs
            = makeAnalysisLog now username s.isCameraEnabled thumb
                (analyzeSessionContext img audio o) :: s.logs := by
          simp [step, analysisTick, hf]
        have hsm2 : (step username s (Step.sample now thumb img audio o)).1.sessionMeta
            = s.sessionMeta := by
          simp [step, analysisTick, hf]
        have hrm2 : (step username s (Step.sample now thumb img audio o)).1.recoveryMeta
            = s.recoveryMeta := by
          simp [step, analysisTick, hf]
        refine ⟨?_, ?_, ?_, ?_⟩
        · rw [hlogs]; exact logsDesc_cons hd hle
        · rw [hlogs]
          intro l hl
          rcases List.mem_cons.mp hl with rfl | hl2
          · exact Nat.le_refl _
          · exact hle l hl2
        · rw [hsm2]; exact hsm
        · rw [hrm2]; exact hrm
  | encode c =>
      refine monitorInv_congr (monitorInv_mono hinv hb) ?_ ?_ ?_ <;>
        (simp only [step, encodeChunk] <;> split_ifs <;> rfl)
  | deliver =>
      refine monitorInv_congr (monitorInv_mono hinv hb) ?_ ?_ ?_ <;>
        (simp only [step, deliverChunk] <;> rcases s.pendingChunk with _ | c <;> rfl)
  | checkpoint now =>
      by_cases hc : s.status = MonitoringState.RECORDING
          ∨ s.status = MonitoringState.PAUSED
      · obtain ⟨hd, hle, hsm, hrm⟩ := hinv
        have hlogs : (step username s (Step.checkpoint now)).1.logs = s.logs := by
          simp only [step, if_pos hc, saveSessionToStorage]
          split_ifs <;> rfl
        have hsm2 : (step username s (Step.checkpoint now)).1.sessionMeta
            = some ⟨s.elapsedTime, s.logs.map stripThumbnail, now⟩ := by
          simp only [step, if_pos hc, saveSessionToStorage]
          split_ifs <;> rfl
        have hrm2 : (step username s (Step.checkpoint now)).1.recoveryMeta
            = s.recoveryMeta := by
          simp only [step, if_pos hc, saveSessionToStorage]
          split_ifs <;> rfl
        refine ⟨?_, ?_, ?_, ?_⟩
        · rw [hlogs]; exact hd
        · rw [hlogs]; exact logsLE_mono hle hb
        · rw [hsm2]
          exact ⟨logsDesc_strip hd, logsLE_mono (logsLE_strip hle) hb⟩
        · rw [hrm2]; exact metaInv_mono hrm hb
      · refine monitorInv_congr (monitorInv_mono hinv hb) ?_ ?_ ?_ <;>
          simp [step, if_neg hc]
  | recover now =>
      rcases hm : s.recoveryMeta with _ | m
      · refine monitorInv_congr (monitorInv_mono hinv hb) ?_ ?_ ?_ <;>
          simp [step, handleResumeSession, hm]
      · obtain ⟨hd, hle, hsm, hrm⟩ := hinv
        have hmm : metaInv t (some m) := hm ▸ hrm
        have hlogs : (step username s (Step.recover now)).1.logs = m.logs := by
          simp [step, handleResumeSession, hm]
        have hsm2 : (step username s (Step.recover now)).1.sessionMeta
            = s.sessionMeta := by
          simp [step, handleResumeSession, hm]
        have hrm2 : (step username s (Step.recover now)).1.recoveryMeta = none := by
          simp [step, handleResumeSession, hm]
        refine ⟨?_, ?_, ?_, ?_⟩
        · rw [hlogs]; exact hmm.1
        · rw [hlogs]; exact logsLE_mono hmm.2 hb
        · rw [hsm2]; exact metaInv_mono hsm hb
        · rw [hrm2]; trivial
  | remount now freshId =>
      obtain ⟨hd, hle, hsm, hrm⟩ := hinv
      have hlogs : (step username s (Step.remount now freshId)).1.logs = [] := rfl
      have hsm2 : (step username s (Step.remount now freshId)).1.sessionMeta
          = s.sessionMeta := rfl
      refine ⟨?_, ?_, ?_, ?_⟩
      · rw [hlogs]; exact List.Pairwise.nil
      · rw [hlogs]; intro l hl; cases hl
      · rw [hsm2]; exact metaInv_mono hsm hb
      · rcases hsme : s.sessionMeta with _ | m
        · have : (step username s (Step.remount now freshId)).1.recoveryMeta
              = none := by simp [step, mountState, hsme]
          rw [this]; trivial
        · have hmm : metaInv t (some m) := hsme ▸ hsm
          by_cases hw : now - m.timestamp < RECOVERY_WINDOW_MS
          · have : (step username s (Step.remount now freshId)).1.recoveryMeta
                = some m := by simp [step, mountState, hsme, hw]
            rw [this]
            exact ⟨hmm.1, logsLE_mono hmm.2 hb⟩
          · have : (step username s (Step.remount now freshId)).1.recoveryMeta
                = none := by simp [step, mountState, hsme, hw]
            rw [this]; trivial

/-- The only step emitting a completion event is a stop, and the log list
it carries is the invariant-ordered live timeline. -/
theorem step_complete_events_desc (username : String) (s : MonitorState)
    (op : Step) (t : Nat) (hinv : monitorInv t s) :
    ∀ e ∈ (step username s op).2, ∀ sid d ls v,
      e = Event.sessionComplete sid d ls v → logsDesc ls := by
  intro e he sid d ls v hev
  subst hev
  cases op with
  | stop =>
      by_cases hr : s.recorder = RecorderState.inactive
      · simp [step, stopMonitoring, hr] at he
      · by_cases hne : (s.chunks ++ s.pendingChunk.toList).isEmpty <;>
          by_cases hl : s.logs.isEmpty <;>
          simp [step, stopMonitoring, hr, hne, hl] at he <;>
          · obtain ⟨_, _, hls, _⟩ := he
            rw [hls]
            exact hinv.1
  | start now o freshId =>
      cases o <;> simp [step, startMonitoring, startAnalysisLoop] at he
  | pause now =>
      simp only [step, pauseMonitoring, saveSessionToStorage] at he
      split_ifs at he <;> simp at he
  | resume now o freshId =>
      by_cases hsa : s.streamActive <;> cases o <;>
        simp [step, resumeMonitoring, startMonitoring, startAnalysisLoop, hsa]
          at he
  | timer => simp [step] at he
  | idle now => simp [step] at he
  | sample now thumb img audio o =>
      by_cases hf : s.analysisFrequency = none <;> simp [step, hf] at he
  | encode c => simp [step] at he
  | deliver => simp [step] at he
  | checkpoint now =>
      by_cases hc : s.status = MonitoringState.RECORDING
          ∨ s.status = MonitoringState.PAUSED
      · simp only [step, if_pos hc, saveSessionToStorage] at he
        split_ifs at he <;> simp at he
      · simp [step, if_neg hc] at he
  | recover now => simp [step] at he
  | remount now freshId => simp [step] at he

/-- Running any time-monotone step list preserves the ordering invariant
and keeps every completion event's log list newest-first. -/
theorem run_preserves_inv (username : String) :
    ∀ (ops : List Step) (s : MonitorState) (t : Nat),
      monitorInv t s → timesMono t ops →
      monitorInv (boundAfter t ops) (run username s ops).1
      ∧ ∀ e ∈ (run username s ops).2, ∀ sid d ls v,
          e = Event.sessionComplete sid d ls v → logsDesc ls := by
  intro ops
  induction ops with
  | nil =>
      intro s t hinv _
      exact ⟨hinv, by simp [run]⟩
  | cons op rest ih =>
      intro s t hinv hmono
      have hb : t ≤ (stepTime op).getD t ∧ timesMono ((stepTime op).getD t) rest := by
        cases hst : stepTime op with
        | none =>
            simp only [timesMono, hst] at hmono
            exact ⟨Nat.le_refl t, hmono⟩
        | some n =>
            simp only [timesMono, hst] at hmono
            exact ⟨hmono.1, hmono.2⟩
      have h1 := step_preserves_inv username s op t hinv hb.1
      have h2 := ih (step username s op).1 ((stepTime op).getD t) h1 hb.2
      have hev := step_complete_events_desc username s op t hinv
      refine ⟨?_, ?_⟩
      · simpa only [run, boundAfter] using h2.1
      · simp only [run]
        intro e he sid d ls v hevq
        rcases List.mem_append.mp he with h | h
        · exact hev e h sid d ls v hevq
        · exact h2.2 e h sid d ls v hevq

/-- Claim C3 (counterexample): the two-tick session completes with the
log created at instant 200 listed before the log created at instant
100 — the list handed to `onSessionComplete` is not non-decreasing in
timestamp, because each new log is prepended, not appended. -/
theorem logs_not_chronological :
    (Event.sessionComplete "s1" 0 [twoLogNew, twoLogOld] (some [7]) ∈ twoSampleTrace)
    ∧ [twoLogNew, twoLogOld].map (fun l => l.timestamp) = [200, 100]
    ∧ ¬ List.Pairwise (fun a b : SessionLog => a.timestamp ≤ b.timestamp)
        [twoLogNew, twoLogOld] :=
  ⟨by decide, by decide, by decide⟩

/-- Claim C3 (amended): each newly created SessionLog is prepended before
all earlier ones, so for every completed session arising from a run
with non-decreasing wall-clock instants, the log list stored in state
and handed to `onSessionComplete` is in reverse-chronological insertion
order — non-increasing in timestamp; consumers that need chronological
order must re-sort (the detailed-analysis view does sort by
timestamp). -/
theorem completed_logs_reverse_chronological (username : String) (t : Nat)
    (s : MonitorState) (ops : List Step) (hinv : monitorInv t s)
    (hmono : timesMono t ops) :
    ∀ e ∈ (run username s ops).2, ∀ sid d ls v,
      e = Event.sessionComplete sid d ls v →
      List.Pairwise (fun a b : SessionLog => b.timestamp ≤ a.timestamp) ls :=
  (run_preserves_inv username ops s t hinv hmono).2

/-- Claim C3 (witness): the minimal session's completion event carries a
newest-first log list. -/
theorem completed_logs_reverse_chronological_witness :
    List.Pairwise (fun a b : SessionLog => b.timestamp ≤ a.timestamp) [shortLog] :=
  completed_logs_reverse_chronological "u" 0 monitor0 shortSessionOps
    (by refine ⟨?_, ?_, ?_, ?_⟩ <;>
      simp [monitor0, mountState, logsDesc, logsLE, metaInv])
    (by exact ⟨Nat.le_refl 0, Nat.zero_le 5, trivial⟩)
    (Event.sessionComplete "s1" 0 [shortLog] (some [7])) (by decide)
    "s1" 0 [shortLog] (some [7]) rfl
